import Mathlib

/-!
Shallow embedding of the ChainFund backend core logic:
milestone voting (app/routers/votes.py), proof submission
(app/routers/milestones.py), funding (app/routers/funding.py),
NFT tier resolution (app/services/nft_service.py) and the skill score
engine (app/services/skill_score_service.py).

Monetary amounts and scores (Python floats) are modelled as rationals;
the final skill score, which passes through `math.log`, is modelled as a
real number.  Python's `round(x, 2)` (round half to even) is modelled by
`rhe`.  Database reads are modelled by passing the looked-up document as
an `Option Campaign`; a successful call returns the document that is
written back together with the HTTP response, and an error result means
the handler raised before the single `update_one`, so nothing was
mutated.  External collaborators (chain gateway, IPFS gateway, wallet
validation) are parameters of each handler.  Timestamp fields carry no
logic and are omitted.
-/

namespace ChainFund

/-- Python-style effective index: negative indices count from the end. -/
def pyIndex (n : ℕ) (i : ℤ) : ℤ := if i < 0 then i + n else i

/-- Python list subscript `l[i]`: `none` models an `IndexError`. -/
def pyGet {α : Type} (l : List α) (i : ℤ) : Option α :=
  let j := pyIndex l.length i
  if 0 ≤ j then l[j.toNat]? else none

/-- Python list element assignment `l[i] = a` (used only at indices where
`pyGet` succeeded). -/
def pySet {α : Type} (l : List α) (i : ℤ) (a : α) : List α :=
  let j := pyIndex l.length i
  if 0 ≤ j then l.set j.toNat a else l

/-- A vote entry stored inside a milestone (dict with keys
`wallet_address`, `vote`). -/
structure Vote where
  wallet_address : String
  vote : Bool
deriving DecidableEq

/-- A milestone embedded in a campaign (app/models/campaign.py). -/
structure Milestone where
  index : ℤ
  title : String
  amount : ℚ
  status : String
  proof_ipfs : Option String
  votes : List Vote
deriving DecidableEq

/-- A backer entry embedded in a campaign (app/models/campaign.py). -/
structure Backer where
  wallet_address : String
  amount_backed : ℚ
deriving DecidableEq

/-- A campaign document (app/models/campaign.py). -/
structure Campaign where
  creator_wallet : String
  title : String
  description : String
  goal_amount : ℚ
  contract_address : Option String
  milestones : List Milestone
  backers : List Backer
  total_backed : ℚ
  status : String
deriving DecidableEq

/-- HTTPException outcomes raised by the handlers, by status code. -/
inductive ApiError where
  | badRequest (detail : String)
  | forbidden (detail : String)
  | notFound (detail : String)
  | internal (detail : String)
deriving DecidableEq

/-- Response of the vote endpoint (message field omitted). -/
structure VoteOnMilestoneResponse where
  success : Bool
  vote_recorded : Bool
  milestone_status : String
  transaction_hash : Option String
deriving DecidableEq

/-- Response of the proof submission endpoint (message field omitted). -/
structure SubmitProofResponse where
  success : Bool
  proof_ipfs : String
deriving DecidableEq

/-- Response of the funding endpoint (message field omitted). -/
structure FundCampaignResponse where
  success : Bool
  transaction_hash : String
  nft_token_id : Option ℕ
deriving DecidableEq

/-- Update the first vote entry whose wallet matches (the code scans the
list, breaks at the first match, and mutates that entry in place). -/
def setVoteFirst : List Vote → String → Bool → List Vote
  | [], _, _ => []
  | x :: xs, w, v =>
    if x.wallet_address = w then { x with vote := v } :: xs
    else x :: setVoteFirst xs w v

/-- Record a vote: overwrite the voter's existing vote if present,
otherwise append a new vote entry (votes.py lines 58-76). -/
def recordVote (votes : List Vote) (w : String) (v : Bool) : List Vote :=
  if votes.any (fun x => x.wallet_address == w) then setVoteFirst votes w v
  else votes ++ [{ wallet_address := w, vote := v }]

/-- `sum(1 for vote in votes if vote["vote"])`. -/
def approveCount (votes : List Vote) : ℕ :=
  (votes.filter (fun x => x.vote)).length

/-- `approval_threshold = total_votes // 2 + 1`. -/
def approvalThreshold (total_votes : ℕ) : ℕ := total_votes / 2 + 1

/-- Embedding of `vote_on_milestone` (app/routers/votes.py).
`validate`/`normalize` model the wallet utilities, `releaseMilestone`
models `web3_service.release_milestone` (transaction hash or failure),
and `campaignLookup` is the result of the database lookup. -/
def voteOnMilestone (validate : String → Bool) (normalize : String → String)
    (releaseMilestone : String → ℤ → Except String String)
    (campaignLookup : Option Campaign) (milestone_index : ℤ)
    (backer_wallet : String) (vote : Bool) :
    Except ApiError (Campaign × VoteOnMilestoneResponse) :=
  if ¬ validate backer_wallet then
    .error (.badRequest "Invalid backer wallet address")
  else
    let nb := normalize backer_wallet
    match campaignLookup with
    | none => .error (.notFound "Campaign not found")
    | some campaign =>
      if ¬ campaign.backers.any (fun b => b.wallet_address == nb) then
        .error (.forbidden "Only campaign backers can vote")
      else if milestone_index ≥ (campaign.milestones.length : ℤ) then
        .error (.badRequest "Invalid milestone index")
      else
        -- Python indexing: a negative index counts from the end; an
        -- IndexError is caught by the blanket handler and becomes a 500.
        match pyGet campaign.milestones milestone_index with
        | none => .error (.internal "Voting failed: list index out of range")
        | some milestone =>
          if milestone.status ≠ "submitted" then
            .error (.badRequest "Milestone is not in submitted state")
          else
            let votes := recordVote milestone.votes nb vote
            let total_votes := votes.length
            let approve_votes := approveCount votes
            let is_approved := approve_votes ≥ approvalThreshold total_votes
            let res : String × Option String :=
              if is_approved ∧ milestone.status = "submitted" then
                match campaign.contract_address with
                | some addr =>
                  match releaseMilestone addr milestone_index with
                  | .ok tx => ("completed", some tx)
                  | .error _ => ("approved", none)
                | none => ("approved", none)
              else (milestone.status, none)
            let milestone' := { milestone with status := res.1, votes := votes }
            let campaign' :=
              { campaign with
                milestones := pySet campaign.milestones milestone_index milestone' }
            .ok (campaign',
              { success := true, vote_recorded := true,
                milestone_status := res.1, transaction_hash := res.2 })

/-- Embedding of `submit_milestone_proof` (app/routers/milestones.py).
`uploadFile` models `ipfs_service.upload_file` applied to the uploaded
bytes: an exception, a falsy result (`none` / empty hash), or a content
address. -/
def submitMilestoneProof (validate : String → Bool) (normalize : String → String)
    (uploadFile : Except String (Option String))
    (campaignLookup : Option Campaign) (milestone_index : ℤ)
    (creator_wallet : Option String) :
    Except ApiError (Campaign × SubmitProofResponse) :=
  match creator_wallet with
  | none => .error (.badRequest "Valid creator wallet address required")
  | some cw =>
    if ¬ validate cw then
      .error (.badRequest "Valid creator wallet address required")
    else
      let nc := normalize cw
      match campaignLookup with
      | none => .error (.notFound "Campaign not found")
      | some campaign =>
        if campaign.creator_wallet ≠ nc then
          .error (.forbidden "Only campaign creator can submit proof")
        else if milestone_index ≥ (campaign.milestones.length : ℤ) then
          .error (.badRequest "Invalid milestone index")
        else
          match pyGet campaign.milestones milestone_index with
          | none => .error (.internal "Proof submission failed: list index out of range")
          | some milestone =>
            if milestone.status ≠ "pending" then
              .error (.badRequest "Milestone is not in pending state")
            else
              match uploadFile with
              | .error e => .error (.internal ("Proof submission failed: " ++ e))
              | .ok none => .error (.internal "Failed to upload proof to IPFS")
              | .ok (some h) =>
                if h = "" then .error (.internal "Failed to upload proof to IPFS")
                else
                  let milestone' :=
                    { milestone with proof_ipfs := some h, status := "submitted" }
                  let campaign' :=
                    { campaign with
                      milestones := pySet campaign.milestones milestone_index milestone' }
                  .ok (campaign', { success := true, proof_ipfs := h })

/-- Add an amount to the first backer entry whose wallet matches (the
code scans, breaks at the first match, and mutates that entry). -/
def addAmountFirst : List Backer → String → ℚ → List Backer
  | [], _, _ => []
  | b :: bs, w, a =>
    if b.wallet_address = w then
      { b with amount_backed := b.amount_backed + a } :: bs
    else b :: addAmountFirst bs w a

/-- Embedding of `fund_campaign` (app/routers/funding.py).  `web3Fund`
models `web3_service.fund_campaign`; `mintResult` models the token id
returned by `nft_service.mint_nft_for_backer` (which never raises and
does not touch the campaign document). -/
def fundCampaign (validate : String → Bool) (normalize : String → String)
    (web3Fund : String → String → ℚ → Except String String)
    (mintResult : Option ℕ)
    (campaignLookup : Option Campaign) (backer_wallet : String) (amount : ℚ) :
    Except ApiError (Campaign × FundCampaignResponse) :=
  if ¬ validate backer_wallet then
    .error (.badRequest "Invalid backer wallet address")
  else
    let nb := normalize backer_wallet
    match campaignLookup with
    | none => .error (.notFound "Campaign not found")
    | some campaign =>
      if campaign.status ≠ "active" then
        .error (.badRequest "Campaign is not active")
      else
        match campaign.contract_address with
        | none => .error (.badRequest "Campaign contract not deployed")
        | some addr =>
          match web3Fund addr nb amount with
          | .error e => .error (.internal ("Funding failed: " ++ e))
          | .ok tx =>
            let backers := campaign.backers
            let backers' :=
              if backers.any (fun b => b.wallet_address == nb) then
                addAmountFirst backers nb amount
              else
                backers ++ [{ wallet_address := nb, amount_backed := amount }]
            let campaign' :=
              { campaign with
                backers := backers',
                total_backed := campaign.total_backed + amount }
            .ok (campaign',
              { success := true, transaction_hash := tx, nft_token_id := mintResult })

/-- One funding request applied to the stored campaign: a successful call
persists the updated document, a failed one leaves the store unchanged. -/
def fundStep (validate : String → Bool) (normalize : String → String)
    (web3Fund : String → String → ℚ → Except String String)
    (mintResult : Option ℕ) (c : Campaign) (req : String × ℚ) : Campaign :=
  match fundCampaign validate normalize web3Fund mintResult (some c) req.1 req.2 with
  | .ok (c', _) => c'
  | .error _ => c

/-- A sequence of funding requests applied in order. -/
def fundMany (validate : String → Bool) (normalize : String → String)
    (web3Fund : String → String → ℚ → Except String String)
    (mintResult : Option ℕ) (c : Campaign) (reqs : List (String × ℚ)) : Campaign :=
  reqs.foldl (fundStep validate normalize web3Fund mintResult) c

/-- Sum of all backer amounts of a campaign. -/
def sumBacked (c : Campaign) : ℚ := (c.backers.map (fun b => b.amount_backed)).sum

/-- Campaign funding invariant: the stored total equals the sum of the
backer amounts, and backer identities are unique. -/
def FundInv (c : Campaign) : Prop :=
  c.total_backed = sumBacked c ∧ (c.backers.map (fun b => b.wallet_address)).Nodup

/-- Embedding of `NFTService.determine_tier` (app/services/nft_service.py):
the tier thresholds are scanned in descending insertion order, first
match wins. -/
def determine_tier (amount : ℚ) : String :=
  if amount ≥ 50 then "Diamond"
  else if amount ≥ 10 then "Platinum"
  else if amount ≥ 5 then "Gold"
  else if amount ≥ 1 then "Silver"
  else if amount ≥ 1/10 then "Bronze"
  else "Supporter"

/-- A skill history entry (app/models/user.py, timestamp omitted). -/
structure SkillHistoryEntry where
  campaign_id : String
  milestone_id : String
  milestone_title : String
  score_earned : ℚ
  difficulty_rating : String
  on_time_completion : Bool
  peer_reviews : List ℚ
deriving DecidableEq

/-- Python's `str.lower()` (ASCII case folding suffices here). -/
def pyLower (s : String) : String := ⟨s.data.map Char.toLower⟩

/-- `SkillScoreService._get_difficulty_multiplier`. -/
def get_difficulty_multiplier (difficulty : String) : ℚ :=
  if pyLower difficulty = "easy" then 1
  else if pyLower difficulty = "medium" then 3/2
  else if pyLower difficulty = "hard" then 2
  else 1

/-- The weighted score contributed by one history entry (loop body of
`calculate_skill_score`). -/
def activityScore (a : SkillHistoryEntry) : ℚ :=
  let completion_score := a.score_earned
  let difficulty_multiplier := get_difficulty_multiplier a.difficulty_rating
  let timeliness_bonus : ℚ := if a.on_time_completion then 11/10 else 1
  let peer_review_avg : ℚ :=
    if a.peer_reviews ≠ [] then a.peer_reviews.sum / a.peer_reviews.length else 1
  let peer_review_multiplier := peer_review_avg / 5
  completion_score * difficulty_multiplier * timeliness_bonus * peer_review_multiplier

/-- The accumulated `total_score` before damping and rounding. -/
def rawScore (history : List SkillHistoryEntry) : ℚ :=
  (history.map activityScore).sum

/-- Python's `round` to an integer: round half to even. -/
noncomputable def rhe (x : ℝ) : ℤ :=
  if x - ⌊x⌋ < 1/2 then ⌊x⌋
  else if 1/2 < x - ⌊x⌋ then ⌊x⌋ + 1
  else if Even ⌊x⌋ then ⌊x⌋ else ⌊x⌋ + 1

/-- Python's `round(x, 2)`. -/
noncomputable def round2 (x : ℝ) : ℝ := (rhe (x * 100) : ℝ) / 100

/-- The diminishing-returns damping applied to the accumulated score. -/
noncomputable def damp (s : ℝ) : ℝ :=
  if s > 1000 then 1000 + Real.log (s - 999) * 100 else s

/-- Embedding of `SkillScoreService.calculate_skill_score` as a function
of the user's history. -/
noncomputable def calculate_skill_score (history : List SkillHistoryEntry) : ℝ :=
  if history = [] then 0 else round2 (damp ((rawScore history : ℚ) : ℝ))

/-- Embedding of `SkillScoreService.determine_skill_level`. -/
noncomputable def determine_skill_level (skill_score : ℝ) : String :=
  if skill_score ≥ 1000 then "Expert"
  else if skill_score ≥ 500 then "Advanced"
  else if skill_score ≥ 200 then "Intermediate"
  else if skill_score ≥ 50 then "Beginner"
  else "Novice"

/-- A user document (app/models/user.py; fields the skill engine does
not touch are omitted). -/
structure User where
  wallet_address : String
  skill_score : ℝ
  skill_level : String
  skill_history : List SkillHistoryEntry
  total_milestones_completed : ℕ
  total_campaigns_participated : ℕ

/-- `len({activity.campaign_id for activity in history})`. -/
def distinctCampaignCount (history : List SkillHistoryEntry) : ℕ :=
  ((history.map (fun a => a.campaign_id)).dedup).length

/-- Embedding of `SkillScoreService.add_skill_activity` applied to a
found user: append the entry, increment the milestone counter, recompute
the distinct-campaign counter, the score and the level. -/
noncomputable def add_skill_activity (user : User) (activity : SkillHistoryEntry) : User :=
  let history' := user.skill_history ++ [activity]
  { user with
    skill_history := history'
    total_milestones_completed := user.total_milestones_completed + 1
    total_campaigns_participated := distinctCampaignCount history'
    skill_score := calculate_skill_score history'
    skill_level := determine_skill_level (calculate_skill_score history') }

/-- A spec-valid history entry: nonnegative base score, peer reviews on
the 1-5 scale. -/
def ValidEntry (a : SkillHistoryEntry) : Prop :=
  0 ≤ a.score_earned ∧ ∀ r ∈ a.peer_reviews, 1 ≤ r ∧ r ≤ 5

instance (a : SkillHistoryEntry) : Decidable (ValidEntry a) := by
  unfold ValidEntry; infer_instance

/-! Concrete fixtures used to instantiate the theorems. -/

/-- Wallet validation stub that accepts every address. -/
def valTrue : String → Bool := fun _ => true

/-- Wallet normalization stub: identity. -/
def nrmId : String → String := fun s => s

/-- A chain gateway whose `release_milestone` always fails. -/
def relFail : String → ℤ → Except String String := fun _ _ => .error "chain down"

/-- The spec's score example entry: 100 points, hard, on time, reviews [5,5]. -/
def entryHard100 : SkillHistoryEntry :=
  { campaign_id := "c1", milestone_id := "m1", milestone_title := "t1",
    score_earned := 100, difficulty_rating := "hard",
    on_time_completion := true, peer_reviews := [5, 5] }

/-- An entry exercising the medium multiplier, the late path and the
empty-peer-reviews default. -/
def entryMedium50 : SkillHistoryEntry :=
  { campaign_id := "c2", milestone_id := "m2", milestone_title := "t2",
    score_earned := 50, difficulty_rating := "medium",
    on_time_completion := false, peer_reviews := [] }

/-- An entry whose raw weighted contribution is exactly 1500. -/
def entry1500 : SkillHistoryEntry :=
  { campaign_id := "c3", milestone_id := "m3", milestone_title := "t3",
    score_earned := 1500, difficulty_rating := "easy",
    on_time_completion := false, peer_reviews := [5] }

/-- A user whose stored milestone counter is out of sync with its
(empty) history. -/
def userStale : User :=
  { wallet_address := "0xU", skill_score := 0, skill_level := "Beginner",
    skill_history := [], total_milestones_completed := 5,
    total_campaigns_participated := 0 }

/-- A user whose counters are consistent with its (empty) history. -/
def userFresh : User :=
  { wallet_address := "0xV", skill_score := 0, skill_level := "Beginner",
    skill_history := [], total_milestones_completed := 0,
    total_campaigns_participated := 0 }

/-- A pending milestone fixture. -/
def msPending : Milestone :=
  { index := 0, title := "a", amount := 1, status := "pending",
    proof_ipfs := none, votes := [] }

/-- A submitted milestone with no votes yet. -/
def msSubmitted : Milestone :=
  { index := 1, title := "b", amount := 2, status := "submitted",
    proof_ipfs := none, votes := [] }

/-- A submitted milestone with one approve and one reject vote cast. -/
def msSubmitted2 : Milestone :=
  { index := 0, title := "b", amount := 2, status := "submitted",
    proof_ipfs := none,
    votes := [{ wallet_address := "0xB1", vote := true },
              { wallet_address := "0xB2", vote := false }] }

/-- A campaign with one backer and one submitted milestone. -/
def cOne : Campaign :=
  { creator_wallet := "0xC", title := "t", description := "d",
    goal_amount := 10, contract_address := some "0xA",
    milestones := [msSubmitted], backers := [⟨"0xB1", 3⟩],
    total_backed := 3, status := "active" }

/-- A campaign with three backers whose submitted milestone already has
two votes (one approve, one reject). -/
def cThree : Campaign :=
  { creator_wallet := "0xC", title := "t", description := "d",
    goal_amount := 10, contract_address := some "0xA",
    milestones := [msSubmitted2],
    backers := [⟨"0xB1", 3⟩, ⟨"0xB2", 4⟩, ⟨"0xB3", 5⟩],
    total_backed := 12, status := "active" }

/-- A campaign with a pending milestone followed by a submitted one,
used to exercise negative indices. -/
def cNeg : Campaign :=
  { creator_wallet := "0xC", title := "t", description := "d",
    goal_amount := 10, contract_address := some "0xA",
    milestones := [msPending, msSubmitted], backers := [⟨"0xB1", 3⟩],
    total_backed := 3, status := "active" }

/-- A fresh active deployed campaign with no backers. -/
def cEmpty : Campaign :=
  { creator_wallet := "0xC", title := "t", description := "d",
    goal_amount := 10, contract_address := some "0xA",
    milestones := [msPending], backers := [],
    total_backed := 0, status := "active" }

/-- A chain gateway whose `fund_campaign` always succeeds. -/
def w3FundOk : String → String → ℚ → Except String String := fun _ _ _ => .ok "0xTX"

/-! Helper lemmas about rounding, damping and the skill score. -/

theorem rhe_ge_floor (x : ℝ) : ⌊x⌋ ≤ rhe x := by
  unfold rhe; split_ifs <;> omega

theorem rhe_le_floor_add_one (x : ℝ) : rhe x ≤ ⌊x⌋ + 1 := by
  unfold rhe; split_ifs <;> omega

theorem rhe_eq_of_lt_half (n : ℤ) (x : ℝ) (h1 : (n : ℝ) ≤ x) (h2 : x < n + 1/2) :
    rhe x = n := by
  have hf : ⌊x⌋ = n := by
    rw [Int.floor_eq_iff]
    exact ⟨h1, by linarith⟩
  unfold rhe
  rw [hf, if_pos (by linarith)]

theorem rhe_mono {x y : ℝ} (h : x ≤ y) : rhe x ≤ rhe y := by
  have hf : ⌊x⌋ ≤ ⌊y⌋ := Int.floor_le_floor h
  rcases lt_or_eq_of_le hf with hlt | heq
  · calc rhe x ≤ ⌊x⌋ + 1 := rhe_le_floor_add_one x
      _ ≤ ⌊y⌋ := by omega
      _ ≤ rhe y := rhe_ge_floor y
  · unfold rhe
    rw [← heq]
    split_ifs <;> first | omega | linarith

theorem round2_mono {x y : ℝ} (h : x ≤ y) : round2 x ≤ round2 y := by
  unfold round2
  have := rhe_mono (by linarith : x * 100 ≤ y * 100)
  have hc : ((rhe (x * 100) : ℤ) : ℝ) ≤ ((rhe (y * 100) : ℤ) : ℝ) := by exact_mod_cast this
  linarith

theorem damp_mono {x y : ℝ} (h : x ≤ y) : damp x ≤ damp y := by
  unfold damp
  split_ifs with h1 h2 h2
  · have := Real.log_le_log (by linarith : (0:ℝ) < x - 999)
      (by linarith : x - 999 ≤ y - 999)
    linarith
  · linarith
  · have := Real.log_nonneg (by linarith : (1:ℝ) ≤ y - 999)
    linarith
  · exact h

theorem calculate_skill_score_eq (h : List SkillHistoryEntry) :
    calculate_skill_score h = round2 (damp ((rawScore h : ℚ) : ℝ)) := by
  by_cases he : h = []
  · subst he
    rw [calculate_skill_score, if_pos rfl]
    have hr : rawScore ([] : List SkillHistoryEntry) = 0 := rfl
    rw [hr]
    have hd : damp (((0 : ℚ) : ℚ) : ℝ) = 0 := by
      rw [show (((0 : ℚ) : ℚ) : ℝ) = (0 : ℝ) by norm_num, damp, if_neg (by norm_num)]
    rw [hd, round2, show (0 : ℝ) * 100 = 0 by ring,
      rhe_eq_of_lt_half 0 0 (by norm_num) (by norm_num)]
    norm_num
  · rw [calculate_skill_score, if_neg he]

theorem gdm_easy : get_difficulty_multiplier "easy" = 1 := by
  rw [get_difficulty_multiplier, if_pos (by decide)]

theorem gdm_medium : get_difficulty_multiplier "medium" = 3/2 := by
  rw [get_difficulty_multiplier, if_neg (by decide), if_pos (by decide)]

theorem gdm_hard : get_difficulty_multiplier "hard" = 2 := by
  rw [get_difficulty_multiplier, if_neg (by decide), if_neg (by decide),
    if_pos (by decide)]

theorem gdm_unknown : get_difficulty_multiplier "unknown" = 1 := by
  rw [get_difficulty_multiplier, if_neg (by decide), if_neg (by decide),
    if_neg (by decide)]

theorem rawScore_entryHard100 : rawScore [entryHard100] = 220 := by
  have h := gdm_hard
  simp only [rawScore, activityScore, entryHard100, List.map_cons, List.map_nil,
    List.sum_cons, List.sum_nil] at h ⊢
  rw [h]
  norm_num [List.cons_ne_nil]

theorem rawScore_entryMedium50 : rawScore [entryMedium50] = 15 := by
  have h := gdm_medium
  simp only [rawScore, activityScore, entryMedium50, List.map_cons, List.map_nil,
    List.sum_cons, List.sum_nil] at h ⊢
  rw [h]
  norm_num

theorem rawScore_entry1500 : rawScore [entry1500] = 1500 := by
  have h := gdm_easy
  simp only [rawScore, activityScore, entry1500, List.map_cons, List.map_nil,
    List.sum_cons, List.sum_nil] at h ⊢
  rw [h]
  norm_num

/-- C3: the skill score of a history is the sum over entries of
`score_earned` times the difficulty multiplier (easy 1.0, medium 1.5,
hard 2.0, 1.0 for an unrecognized difficulty) times 1.1 if on time,
times the mean of the peer reviews (1.0 when empty) divided by 5.0,
then damped and rounded to 2 decimals; in particular the spec's example
entry (100, hard, on time, reviews [5,5]) scores exactly 220.0. -/
theorem skill_score_formula :
    get_difficulty_multiplier "easy" = 1 ∧
    get_difficulty_multiplier "medium" = 3/2 ∧
    get_difficulty_multiplier "hard" = 2 ∧
    get_difficulty_multiplier "unknown" = 1 ∧
    activityScore entryHard100 = 100 * 2 * (11/10) * (((5 + 5) / 2) / 5) ∧
    calculate_skill_score [entryHard100] = 220 ∧
    activityScore entryMedium50 = 50 * (3/2) * 1 * (1/5) ∧
    calculate_skill_score [entryMedium50] = 15 := by
  refine ⟨gdm_easy, gdm_medium, gdm_hard, gdm_unknown, ?_, ?_, ?_, ?_⟩
  · rw [show (100 : ℚ) * 2 * (11/10) * (((5 + 5) / 2) / 5) = 220 by norm_num]
    have h := rawScore_entryHard100
    simpa [rawScore] using h
  · rw [calculate_skill_score_eq, rawScore_entryHard100,
      show (((220 : ℚ)) : ℝ) = 220 by norm_num, damp, if_neg (by norm_num)]
    rw [round2, show (220 : ℝ) * 100 = 22000 by norm_num,
      rhe_eq_of_lt_half 22000 22000 (by norm_num) (by norm_num)]
    norm_num
  · rw [show (50 : ℚ) * (3/2) * 1 * (1/5) = 15 by norm_num]
    have h := rawScore_entryMedium50
    simpa [rawScore] using h
  · rw [calculate_skill_score_eq, rawScore_entryMedium50,
      show (((15 : ℚ)) : ℝ) = 15 by norm_num, damp, if_neg (by norm_num)]
    rw [round2, show (15 : ℝ) * 100 = 1500 by norm_num,
      rhe_eq_of_lt_half 1500 1500 (by norm_num) (by norm_num)]
    norm_num

/-- C9: tier resolution picks the highest threshold met, with inclusive
lower bounds, scanning Diamond 50, Platinum 10, Gold 5, Silver 1,
Bronze 0.1 in descending order, and falls back to Supporter; amount 1.0
resolves to Silver and 0.999 to Bronze. -/
theorem tier_resolution (a : ℚ) :
    (determine_tier a = "Diamond" ↔ 50 ≤ a) ∧
    (determine_tier a = "Platinum" ↔ 10 ≤ a ∧ a < 50) ∧
    (determine_tier a = "Gold" ↔ 5 ≤ a ∧ a < 10) ∧
    (determine_tier a = "Silver" ↔ 1 ≤ a ∧ a < 5) ∧
    (determine_tier a = "Bronze" ↔ 1/10 ≤ a ∧ a < 1) ∧
    (determine_tier a = "Supporter" ↔ a < 1/10) ∧
    determine_tier 1 = "Silver" ∧ determine_tier (999/1000) = "Bronze" := by
  refine ⟨?_, ?_, ?_, ?_, ?_, ?_, by norm_num [determine_tier],
    by norm_num [determine_tier]⟩ <;>
    (unfold determine_tier; split_ifs with h1 h2 h3 h4 h5) <;>
    refine ⟨fun hs => ?_, fun hp => ?_⟩ <;>
    first
      | (exact absurd hs (by decide))
      | linarith
      | (constructor <;> linarith)

theorem log501_bounds : (6.216605 : ℝ) ≤ Real.log 501 ∧ Real.log 501 ≤ 6.2166065 := by
  have h2a := Real.log_two_gt_d9
  have h2b := Real.log_two_lt_d9
  have h512 : Real.log 512 = 9 * Real.log 2 := by
    rw [show (512 : ℝ) = 2 ^ 9 by norm_num, Real.log_pow]
    norm_num
  have hq : Real.log 501 = Real.log 512 - Real.log (512/501) := by
    rw [Real.log_div (by norm_num) (by norm_num)]
    ring
  have hx : |(-(11/501) : ℝ)| < 1 := by
    rw [abs_neg, abs_of_pos] <;> norm_num
  have habs := Real.abs_log_sub_add_sum_range_le hx 3
  rw [show (1 : ℝ) - -(11/501) = 512/501 by norm_num] at habs
  rw [abs_neg, abs_of_pos (by norm_num : (0:ℝ) < 11/501)] at habs
  simp only [Finset.sum_range_succ, Finset.sum_range_zero] at habs
  norm_num at habs
  rw [abs_le] at habs
  obtain ⟨hL, hU⟩ := habs
  constructor <;> linarith

theorem score1500_unfold :
    calculate_skill_score [entry1500] = round2 (1000 + Real.log 501 * 100) := by
  rw [calculate_skill_score_eq, rawScore_entry1500,
    show (((1500 : ℚ)) : ℝ) = 1500 by norm_num, damp, if_pos (by norm_num),
    show (1500 : ℝ) - 999 = 501 by norm_num]

theorem score1500_value : calculate_skill_score [entry1500] = 1621.66 := by
  rw [score1500_unfold]
  obtain ⟨hlb, hub⟩ := log501_bounds
  rw [round2, rhe_eq_of_lt_half 162166 ((1000 + Real.log 501 * 100) * 100)
    (by push_cast; linarith) (by push_cast; linarith)]
  norm_num

/-- C5 counterexample: on the history whose raw weighted sum is exactly
1500 the computed score is 1621.66 (damped value 1000 + ln(501)*100
rounded to 2 decimals), not the 1621.17 stated by the spec. -/
theorem damping_example_not_1621_17 :
    rawScore [entry1500] = 1500 ∧ calculate_skill_score [entry1500] ≠ 1621.17 := by
  refine ⟨rawScore_entry1500, ?_⟩
  rw [score1500_value]
  norm_num

/-- C5 amended: for a history whose raw (pre-damping) weighted sum is
exactly 1500, the score is the damped value 1000 + ln(501)*100 rounded
to 2 decimals, which is 1621.66 (not 1621.17); damping applies exactly
when the raw sum exceeds 1000. -/
theorem damping_example_value :
    rawScore [entry1500] = 1500 ∧
    calculate_skill_score [entry1500] = round2 (1000 + Real.log 501 * 100) ∧
    calculate_skill_score [entry1500] = 1621.66 :=
  ⟨rawScore_entry1500, score1500_unfold, score1500_value⟩

theorem activityScore_nonneg (E : SkillHistoryEntry) (hE : ValidEntry E) :
    0 ≤ activityScore E := by
  obtain ⟨h0, hpr⟩ := hE
  simp only [activityScore]
  have hd : 0 ≤ get_difficulty_multiplier E.difficulty_rating := by
    rw [get_difficulty_multiplier]
    split_ifs <;> norm_num
  have ht : (0:ℚ) ≤ if E.on_time_completion then 11/10 else 1 := by
    split_ifs <;> norm_num
  have hp : (0:ℚ) ≤
      (if E.peer_reviews ≠ [] then E.peer_reviews.sum / E.peer_reviews.length
       else 1) / 5 := by
    apply div_nonneg _ (by norm_num)
    split_ifs
    · apply div_nonneg
      · apply List.sum_nonneg
        intro r hr
        linarith [(hpr r hr).1]
      · positivity
    · norm_num
  exact mul_nonneg (mul_nonneg (mul_nonneg h0 hd) ht) hp

/-- C4: appending a spec-valid entry (nonnegative base score, peer
reviews on the 1-5 scale) never decreases the computed skill score, the
damping boundary included. -/
theorem skill_score_monotone (H : List SkillHistoryEntry) (E : SkillHistoryEntry)
    (hE : ValidEntry E) :
    calculate_skill_score (H ++ [E]) ≥ calculate_skill_score H := by
  rw [calculate_skill_score_eq, calculate_skill_score_eq]
  apply round2_mono
  apply damp_mono
  have hr : rawScore (H ++ [E]) = rawScore H + activityScore E := by
    simp [rawScore]
  have hnn := activityScore_nonneg E hE
  have hle : rawScore H ≤ rawScore (H ++ [E]) := by rw [hr]; linarith
  exact_mod_cast hle

/-- C4 witness: the monotonicity theorem applied to the concrete history
[entryMedium50] and the concrete valid entry entryHard100. -/
theorem skill_score_monotone_witness :
    ValidEntry entryHard100 ∧
    calculate_skill_score ([entryMedium50] ++ [entryHard100]) ≥
      calculate_skill_score [entryMedium50] :=
  ⟨by decide, skill_score_monotone [entryMedium50] entryHard100 (by decide)⟩

/-- C6 counterexample: starting from a user whose stored counter (5) is
out of sync with its empty history, appending an activity yields counter
6 but history length 1: `total_milestones_completed` is incremented, not
recomputed from the history, so the claimed equality fails for this
prior user state. -/
theorem milestone_counter_not_recomputed :
    (add_skill_activity userStale entryHard100).total_milestones_completed = 6 ∧
    (add_skill_activity userStale entryHard100).skill_history.length = 1 ∧
    (add_skill_activity userStale entryHard100).total_milestones_completed ≠
      (add_skill_activity userStale entryHard100).skill_history.length := by
  refine ⟨?_, ?_, ?_⟩ <;> simp [add_skill_activity, userStale]

/-- C6 amended: on append, the score, the level and the
distinct-campaign counter are recomputed in full from the complete
history, while `total_milestones_completed` is incremented by one — so
it equals the history length afterwards only when it already did before
the append. -/
theorem counters_after_append (u : User) (a : SkillHistoryEntry)
    (hsync : u.total_milestones_completed = u.skill_history.length) :
    (add_skill_activity u a).total_milestones_completed =
      (add_skill_activity u a).skill_history.length ∧
    (add_skill_activity u a).total_milestones_completed =
      u.total_milestones_completed + 1 ∧
    (add_skill_activity u a).total_campaigns_participated =
      distinctCampaignCount (add_skill_activity u a).skill_history ∧
    (add_skill_activity u a).skill_score =
      calculate_skill_score (add_skill_activity u a).skill_history ∧
    (add_skill_activity u a).skill_level =
      determine_skill_level
        (calculate_skill_score (add_skill_activity u a).skill_history) := by
  simp [add_skill_activity, hsync]

/-- C6 witness: the amended statement applied to a user whose counter is
consistent with its history. -/
theorem counters_after_append_witness :
    userFresh.total_milestones_completed = userFresh.skill_history.length ∧
    (add_skill_activity userFresh entryHard100).total_milestones_completed =
      (add_skill_activity userFresh entryHard100).skill_history.length :=
  ⟨rfl, (counters_after_append userFresh entryHard100 rfl).1⟩

theorem pyGet_some_lt {α : Type} {l : List α} {i : ℤ} {b : α}
    (h0 : 0 ≤ i) (h : pyGet l i = some b) : i < (l.length : ℤ) := by
  simp only [pyGet, pyIndex] at h
  rw [if_neg (by omega : ¬ i < 0), if_pos h0] at h
  rcases List.getElem?_eq_some.mp h with ⟨hh, _⟩
  omega

theorem pyGet_pySet {α : Type} (l : List α) (i : ℤ) (a b : α)
    (h : pyGet l i = some b) : pyGet (pySet l i a) i = some a := by
  have hj : 0 ≤ pyIndex l.length i := by
    by_contra hc
    simp only [pyGet, if_neg hc] at h
    exact Option.noConfusion h
  have hlen : (pySet l i a).length = l.length := by
    simp only [pySet]
    rw [if_pos hj]
    simp
  have hlt : (pyIndex l.length i).toNat < l.length := by
    simp only [pyGet, if_pos hj] at h
    rcases List.getElem?_eq_some.mp h with ⟨hh, _⟩
    exact hh
  simp only [pyGet]
  rw [hlen, if_pos hj]
  simp only [pySet]
  rw [if_pos hj]
  rw [List.getElem?_set_self]
  exact hlt

/-- C7 amended: for an authorized caller, an index at least the number
of milestones is rejected by both endpoints with a 400 validation error
before any write, and an in-range nonnegative index whose milestone is
not in the required state ('submitted' for voting, 'pending' for proof
submission) is likewise rejected with a 400 before any write; negative
indices, however, are resolved Python-style from the end of the list
(see the counterexample), so only indices `>= n` are "unknown" to the
code. -/
theorem invalid_index_or_state_rejected
    (validate : String → Bool) (normalize : String → String)
    (rel : String → ℤ → Except String String)
    (upl : Except String (Option String))
    (c : Campaign) (i : ℤ) (w : String) (v : Bool) (m : Milestone)
    (hval : validate w = true) :
    (c.backers.any (fun b => b.wallet_address == normalize w) = true →
      i ≥ (c.milestones.length : ℤ) →
      voteOnMilestone validate normalize rel (some c) i w v =
        .error (.badRequest "Invalid milestone index")) ∧
    (c.creator_wallet = normalize w →
      i ≥ (c.milestones.length : ℤ) →
      submitMilestoneProof validate normalize upl (some c) i (some w) =
        .error (.badRequest "Invalid milestone index")) ∧
    (c.backers.any (fun b => b.wallet_address == normalize w) = true →
      0 ≤ i → pyGet c.milestones i = some m → m.status ≠ "submitted" →
      voteOnMilestone validate normalize rel (some c) i w v =
        .error (.badRequest "Milestone is not in submitted state")) ∧
    (c.creator_wallet = normalize w →
      0 ≤ i → pyGet c.milestones i = some m → m.status ≠ "pending" →
      submitMilestoneProof validate normalize upl (some c) i (some w) =
        .error (.badRequest "Milestone is not in pending state")) := by
  refine ⟨fun hb hge => ?_, fun hcw hge => ?_,
    fun hb h0 hget hst => ?_, fun hcw h0 hget hst => ?_⟩
  · simp only [voteOnMilestone, hval, hb]
    simp [hge]
  · simp only [submitMilestoneProof, hval, hcw]
    simp [hge]
  · have hlt := pyGet_some_lt h0 hget
    simp only [voteOnMilestone, hval, hb]
    simp [not_le.mpr hlt, hget, hst]
  · have hlt := pyGet_some_lt h0 hget
    simp only [submitMilestoneProof, hval, hcw]
    simp [not_le.mpr hlt, hget, hst]

/-- C7 counterexample: a vote at milestone index -1 — which is not one
of the indices 0..n-1 — is not rejected with a validation error: Python
list indexing resolves it to the last milestone, the vote is recorded,
the milestone is approved and the mutated campaign is written back with
a success response. -/
theorem negative_index_not_rejected :
    voteOnMilestone valTrue nrmId relFail (some cNeg) (-1) "0xB1" true =
      .ok ({ cNeg with
             milestones :=
               [msPending,
                { msSubmitted with
                  status := "approved"
                  votes := [{ wallet_address := "0xB1", vote := true }] }] },
           { success := true, vote_recorded := true,
             milestone_status := "approved", transaction_hash := none }) := by
  rfl

/-- C7 witness: the amended statement applied at concrete inputs — an
out-of-range index 5 for both endpoints, and the in-range index 1 whose
milestone is submitted rather than pending for proof submission. -/
theorem invalid_index_rejected_witness :
    voteOnMilestone valTrue nrmId relFail (some cNeg) 5 "0xB1" true =
      .error (.badRequest "Invalid milestone index") ∧
    submitMilestoneProof valTrue nrmId (.ok (some "QmHash")) (some cNeg) 5 (some "0xC") =
      .error (.badRequest "Invalid milestone index") ∧
    submitMilestoneProof valTrue nrmId (.ok (some "QmHash")) (some cNeg) 1 (some "0xC") =
      .error (.badRequest "Milestone is not in pending state") :=
  ⟨(invalid_index_or_state_rejected valTrue nrmId relFail (.ok (some "QmHash"))
      cNeg 5 "0xB1" true msPending rfl).1 (by decide) (by decide),
   (invalid_index_or_state_rejected valTrue nrmId relFail (.ok (some "QmHash"))
      cNeg 5 "0xC" true msPending rfl).2.1 rfl (by decide),
   (invalid_index_or_state_rejected valTrue nrmId relFail (.ok (some "QmHash"))
      cNeg 1 "0xC" true msSubmitted rfl).2.2.2 rfl (by decide) (by decide)
      (by decide)⟩

/-- C2: when a vote reaches the approval threshold on a submitted
milestone of a deployed campaign and the chain gateway's fund release
fails, the milestone is persisted as 'approved' (neither rolled back to
'submitted' nor advanced to 'completed'), the failure is swallowed, and
the vote still returns success with no transaction hash. -/
theorem release_failure_swallowed
    (validate : String → Bool) (normalize : String → String)
    (rel : String → ℤ → Except String String)
    (c : Campaign) (i : ℤ) (w : String) (v : Bool) (m : Milestone)
    (addr e : String)
    (hval : validate w = true)
    (hb : c.backers.any (fun b => b.wallet_address == normalize w) = true)
    (h0 : 0 ≤ i) (hget : pyGet c.milestones i = some m)
    (hst : m.status = "submitted")
    (happ : approveCount (recordVote m.votes (normalize w) v) ≥
      approvalThreshold (recordVote m.votes (normalize w) v).length)
    (hca : c.contract_address = some addr)
    (hrel : rel addr i = .error e) :
    voteOnMilestone validate normalize rel (some c) i w v =
      .ok ({ c with
             milestones := pySet c.milestones i
               { m with
                 status := "approved"
                 votes := recordVote m.votes (normalize w) v } },
           { success := true, vote_recorded := true,
             milestone_status := "approved", transaction_hash := none }) := by
  have hlt := pyGet_some_lt h0 hget
  simp only [voteOnMilestone, hval, hb]
  simp [not_le.mpr hlt, hget, hst, happ, hca, hrel]

/-- C2 witness: the theorem applied to a one-backer campaign whose only
milestone is submitted, with a chain gateway that always fails. -/
theorem release_failure_swallowed_witness :
    msSubmitted.status = "submitted" ∧
    relFail "0xA" 0 = .error "chain down" ∧
    voteOnMilestone valTrue nrmId relFail (some cOne) 0 "0xB1" true =
      .ok ({ cOne with
             milestones := pySet cOne.milestones 0
               { msSubmitted with
                 status := "approved"
                 votes := recordVote msSubmitted.votes (nrmId "0xB1") true } },
           { success := true, vote_recorded := true,
             milestone_status := "approved", transaction_hash := none }) :=
  ⟨rfl, rfl,
   release_failure_swallowed valTrue nrmId relFail cOne 0 "0xB1" true msSubmitted
     "0xA" "chain down" rfl (by decide) (by decide) (by decide) rfl (by decide)
     rfl rfl⟩

/-- C1: after a vote is recorded on a submitted milestone, the approval
threshold is `floor(total_votes/2) + 1` computed over the votes cast so
far (not the backer count), and the milestone leaves 'submitted' (for
'approved', or 'completed' on successful release) exactly when the
approve count reaches that threshold; in particular 2 approvals among 3
votes cast approve the milestone, as does a single approve vote as the
only vote cast. -/
theorem vote_threshold_majority
    (validate : String → Bool) (normalize : String → String)
    (rel : String → ℤ → Except String String)
    (c : Campaign) (i : ℤ) (w : String) (v : Bool) (m : Milestone)
    (hval : validate w = true)
    (hb : c.backers.any (fun b => b.wallet_address == normalize w) = true)
    (h0 : 0 ≤ i) (hget : pyGet c.milestones i = some m)
    (hst : m.status = "submitted") :
    (∃ c' r, voteOnMilestone validate normalize rel (some c) i w v = .ok (c', r) ∧
      r.success = true ∧
      pyGet c'.milestones i =
        some { m with
               status := r.milestone_status
               votes := recordVote m.votes (normalize w) v } ∧
      approvalThreshold (recordVote m.votes (normalize w) v).length =
        (recordVote m.votes (normalize w) v).length / 2 + 1 ∧
      (approveCount (recordVote m.votes (normalize w) v) ≥
          approvalThreshold (recordVote m.votes (normalize w) v).length ↔
        r.milestone_status ≠ "submitted") ∧
      (approveCount (recordVote m.votes (normalize w) v) ≥
          approvalThreshold (recordVote m.votes (normalize w) v).length →
        r.milestone_status = "approved" ∨ r.milestone_status = "completed")) ∧
    (voteOnMilestone valTrue nrmId relFail (some cThree) 0 "0xB3" true).map
      (fun p => p.2.milestone_status) = .ok "approved" ∧
    (voteOnMilestone valTrue nrmId relFail (some cOne) 0 "0xB1" true).map
      (fun p => p.2.milestone_status) = .ok "approved" := by
  refine ⟨?_, by rfl, by rfl⟩
  have hlt := pyGet_some_lt h0 hget
  by_cases happ : approveCount (recordVote m.votes (normalize w) v) ≥
      approvalThreshold (recordVote m.votes (normalize w) v).length
  · rcases hca : c.contract_address with _ | addr
    · refine ⟨{ c with milestones := pySet c.milestones i { m with status := "approved", votes := recordVote m.votes (normalize w) v } }, { success := true, vote_recorded := true, milestone_status := "approved", transaction_hash := none }, ?_, rfl, ?_, rfl, ?_, fun _ => Or.inl rfl⟩
      · simp only [voteOnMilestone, hval, hb]
        simp [not_le.mpr hlt, hget, hst, happ, hca]
      · exact pyGet_pySet c.milestones i _ m hget
      · exact iff_of_true happ (by decide)
    · rcases hrel : rel addr i with e | tx
      · refine ⟨{ c with milestones := pySet c.milestones i { m with status := "approved", votes := recordVote m.votes (normalize w) v } }, { success := true, vote_recorded := true, milestone_status := "approved", transaction_hash := none }, ?_, rfl, ?_, rfl, ?_, fun _ => Or.inl rfl⟩
        · simp only [voteOnMilestone, hval, hb]
          simp [not_le.mpr hlt, hget, hst, happ, hca, hrel]
        · exact pyGet_pySet c.milestones i _ m hget
        · exact iff_of_true happ (by decide)
      · refine ⟨{ c with milestones := pySet c.milestones i { m with status := "completed", votes := recordVote m.votes (normalize w) v } }, { success := true, vote_recorded := true, milestone_status := "completed", transaction_hash := some tx }, ?_, rfl, ?_, rfl, ?_, fun _ => Or.inr rfl⟩
        · simp only [voteOnMilestone, hval, hb]
          simp [not_le.mpr hlt, hget, hst, happ, hca, hrel]
        · exact pyGet_pySet c.milestones i _ m hget
        · exact iff_of_true happ (by simp)
  · refine ⟨{ c with milestones := pySet c.milestones i { m with status := m.status, votes := recordVote m.votes (normalize w) v } }, { success := true, vote_recorded := true, milestone_status := m.status, transaction_hash := none }, ?_, rfl, ?_, rfl, ?_, fun h => absurd h happ⟩
    · simp only [voteOnMilestone, hval, hb]
      simp [not_le.mpr hlt, hget, hst, happ]
    · exact pyGet_pySet c.milestones i _ m hget
    · exact iff_of_false happ (by simp [hst])

/-- C1 witness: the threshold theorem applied to the three-backer
campaign whose submitted milestone already carries one approve and one
reject vote, with "0xB3" casting the deciding approve vote. -/
theorem vote_threshold_majority_witness :
    msSubmitted2.status = "submitted" ∧
    ∃ c' r, voteOnMilestone valTrue nrmId relFail (some cThree) 0 "0xB3" true =
        .ok (c', r) ∧ r.success = true := by
  refine ⟨rfl, ?_⟩
  obtain ⟨⟨c', r, heq, hsucc, _, _, _, _⟩, _, _⟩ :=
    vote_threshold_majority valTrue nrmId relFail cThree 0 "0xB3" true msSubmitted2
      rfl (by decide) (by decide) (by decide) rfl
  exact ⟨c', r, heq, hsucc⟩

theorem addAmountFirst_wallets (bs : List Backer) (w : String) (a : ℚ) :
    (addAmountFirst bs w a).map (fun b => b.wallet_address) =
      bs.map (fun b => b.wallet_address) := by
  induction bs with
  | nil => rfl
  | cons b bs ih =>
    simp only [addAmountFirst]
    split_ifs with hw
    · simp
    · simp [ih]

theorem addAmountFirst_sum (bs : List Backer) (w : String) (a : ℚ)
    (h : bs.any (fun b => b.wallet_address == w) = true) :
    ((addAmountFirst bs w a).map (fun b => b.amount_backed)).sum =
      (bs.map (fun b => b.amount_backed)).sum + a := by
  induction bs with
  | nil => simp at h
  | cons b bs ih =>
    simp only [addAmountFirst]
    split_ifs with hw
    · simp only [List.map_cons, List.sum_cons]
      ring
    · simp only [List.any_cons, Bool.or_eq_true, beq_iff_eq] at h
      rcases h with h | h
      · exact absurd h hw
      · simp only [List.map_cons, List.sum_cons, ih (by simpa using h)]
        ring

theorem fundCampaign_ok
    (validate : String → Bool) (normalize : String → String)
    (web3Fund : String → String → ℚ → Except String String) (mintResult : Option ℕ)
    (c : Campaign) (w : String) (amount : ℚ) (addr tx : String)
    (hval : validate w = true) (hact : c.status = "active")
    (hca : c.contract_address = some addr)
    (hw3 : web3Fund addr (normalize w) amount = .ok tx) :
    fundCampaign validate normalize web3Fund mintResult (some c) w amount =
      .ok ({ c with backers := if c.backers.any (fun b => b.wallet_address == normalize w) then addAmountFirst c.backers (normalize w) amount else c.backers ++ [{ wallet_address := normalize w, amount_backed := amount }], total_backed := c.total_backed + amount }, { success := true, transaction_hash := tx, nft_token_id := mintResult }) := by
  simp [fundCampaign, hval, hact, hca, hw3]

theorem fundCampaign_ok_shape
    (validate : String → Bool) (normalize : String → String)
    (web3Fund : String → String → ℚ → Except String String) (mintResult : Option ℕ)
    (c : Campaign) (w : String) (amount : ℚ) (c' : Campaign) (r : FundCampaignResponse)
    (heq : fundCampaign validate normalize web3Fund mintResult (some c) w amount =
      .ok (c', r)) :
    c'.backers = (if c.backers.any (fun b => b.wallet_address == normalize w) then addAmountFirst c.backers (normalize w) amount else c.backers ++ [{ wallet_address := normalize w, amount_backed := amount }]) ∧
    c'.total_backed = c.total_backed + amount := by
  simp only [fundCampaign] at heq
  by_cases hv : validate w = true
  case neg =>
    rw [if_pos (by simp [hv])] at heq
    exact absurd heq (by simp)
  rw [if_neg (by simp [hv])] at heq
  by_cases hs : c.status ≠ "active"
  case pos =>
    rw [if_pos hs] at heq
    exact absurd heq (by simp)
  rw [if_neg hs] at heq
  split at heq
  · exact absurd heq (by simp)
  · split at heq
    · exact absurd heq (by simp)
    · simp only [Except.ok.injEq, Prod.mk.injEq] at heq
      obtain ⟨hc, _⟩ := heq
      subst hc
      exact ⟨rfl, rfl⟩

theorem fundStep_inv
    (validate : String → Bool) (normalize : String → String)
    (web3Fund : String → String → ℚ → Except String String) (mintResult : Option ℕ)
    (c : Campaign) (req : String × ℚ) (hInv : FundInv c) :
    FundInv (fundStep validate normalize web3Fund mintResult c req) := by
  obtain ⟨hsum, hnodup⟩ := hInv
  unfold fundStep
  cases heq : fundCampaign validate normalize web3Fund mintResult (some c) req.1 req.2 with
  | error e => exact ⟨hsum, hnodup⟩
  | ok p =>
    obtain ⟨c', r⟩ := p
    obtain ⟨hb, ht⟩ := fundCampaign_ok_shape validate normalize web3Fund mintResult
      c req.1 req.2 c' r heq
    by_cases hex : c.backers.any (fun b => b.wallet_address == normalize req.1) = true
    · rw [if_pos hex] at hb
      refine ⟨?_, ?_⟩
      · rw [ht, hsum]
        unfold sumBacked
        rw [hb, addAmountFirst_sum c.backers (normalize req.1) req.2 hex]
      · rw [hb, addAmountFirst_wallets]
        exact hnodup
    · rw [if_neg hex] at hb
      have hnotin : ∀ b ∈ c.backers, b.wallet_address ≠ normalize req.1 := by
        intro b hbmem hcontra
        apply hex
        rw [List.any_eq_true]
        exact ⟨b, hbmem, by simp [hcontra]⟩
      refine ⟨?_, ?_⟩
      · rw [ht, hsum]
        unfold sumBacked
        rw [hb]
        simp
      · rw [hb]
        simp only [List.map_append, List.map_cons, List.map_nil]
        rw [List.nodup_append]
        refine ⟨hnodup, List.nodup_singleton _, ?_⟩
        intro x hx hx2
        simp only [List.mem_singleton] at hx2
        obtain ⟨b, hbmem, hbx⟩ := List.mem_map.mp hx
        exact hnotin b hbmem (by rw [hbx, hx2])

theorem fundMany_inv
    (validate : String → Bool) (normalize : String → String)
    (web3Fund : String → String → ℚ → Except String String) (mintResult : Option ℕ)
    (c : Campaign) (reqs : List (String × ℚ)) (hInv : FundInv c) :
    FundInv (fundMany validate normalize web3Fund mintResult c reqs) := by
  induction reqs generalizing c with
  | nil => exact hInv
  | cons q qs ih =>
    exact ih _ (fundStep_inv validate normalize web3Fund mintResult c q hInv)

/-- C8: starting from a campaign satisfying the funding invariant (as a
freshly created campaign does: no backers, zero total), any sequence of
fund operations preserves `total_backed = sum of backer amounts` and the
uniqueness of backer identities; funding with an identity that already
has a Backer entry keeps the identity list unchanged — the amount is
added to the existing entry instead of creating a second one. -/
theorem funding_invariant
    (validate : String → Bool) (normalize : String → String)
    (web3Fund : String → String → ℚ → Except String String) (mintResult : Option ℕ)
    (c : Campaign) (reqs : List (String × ℚ))
    (hInv : FundInv c) :
    FundInv (fundMany validate normalize web3Fund mintResult c reqs) ∧
    ∀ w a c' r,
      c.backers.any (fun b => b.wallet_address == normalize w) = true →
      fundCampaign validate normalize web3Fund mintResult (some c) w a = .ok (c', r) →
      c'.backers.map (fun b => b.wallet_address) =
        c.backers.map (fun b => b.wallet_address) ∧
      c'.total_backed = c.total_backed + a := by
  refine ⟨fundMany_inv validate normalize web3Fund mintResult c reqs hInv, ?_⟩
  intro w a c' r hex heq
  obtain ⟨hb, ht⟩ := fundCampaign_ok_shape validate normalize web3Fund mintResult
    c w a c' r heq
  rw [if_pos hex] at hb
  exact ⟨by rw [hb, addAmountFirst_wallets], ht⟩

/-- C8 witness: the invariant theorem applied to the fresh empty
campaign and a concrete sequence of three funding requests, the second
of which re-funds an existing backer. -/
theorem funding_invariant_witness :
    FundInv cEmpty ∧
    FundInv (fundMany valTrue nrmId w3FundOk none cEmpty
      [("0xB1", 2), ("0xB1", 3), ("0xB2", 4)]) := by
  have h0 : FundInv cEmpty := ⟨rfl, List.nodup_nil⟩
  exact ⟨h0, (funding_invariant valTrue nrmId w3FundOk none cEmpty
    [("0xB1", 2), ("0xB1", 3), ("0xB2", 4)] h0).1⟩

/-- C10: the funding endpoint performs no validation of the amount: for
every rational amount, zero and negative values included, funding an
active deployed campaign with a valid backer identity and a successful
chain call returns success and adds the amount to both the backer's
cumulative amount (via the backers list sum) and `total_backed`. -/
theorem fund_amount_unvalidated
    (validate : String → Bool) (normalize : String → String)
    (web3Fund : String → String → ℚ → Except String String) (mintResult : Option ℕ)
    (c : Campaign) (w : String) (amount : ℚ) (addr tx : String)
    (hval : validate w = true) (hact : c.status = "active")
    (hca : c.contract_address = some addr)
    (hw3 : web3Fund addr (normalize w) amount = .ok tx) :
    ∃ c' r,
      fundCampaign validate normalize web3Fund mintResult (some c) w amount =
        .ok (c', r) ∧
      r.success = true ∧
      c'.total_backed = c.total_backed + amount ∧
      sumBacked c' = sumBacked c + amount := by
  refine ⟨_, _,
    fundCampaign_ok validate normalize web3Fund mintResult c w amount addr tx
      hval hact hca hw3, rfl, rfl, ?_⟩
  by_cases hex : c.backers.any (fun b => b.wallet_address == normalize w) = true
  · unfold sumBacked
    simp only [if_pos hex]
    exact addAmountFirst_sum c.backers (normalize w) amount hex
  · unfold sumBacked
    simp only [if_neg hex]
    simp

/-- C10 witness: funding the fresh campaign with the negative amount -5
succeeds and decreases `total_backed` accordingly. -/
theorem fund_amount_unvalidated_witness :
    cEmpty.status = "active" ∧ cEmpty.contract_address = some "0xA" ∧
    ∃ c' r,
      fundCampaign valTrue nrmId w3FundOk none (some cEmpty) "0xB9" (-5) =
        .ok (c', r) ∧
      c'.total_backed = cEmpty.total_backed + (-5) := by
  refine ⟨rfl, rfl, ?_⟩
  obtain ⟨c', r, heq, _, htot, _⟩ :=
    fund_amount_unvalidated valTrue nrmId w3FundOk none cEmpty "0xB9" (-5)
      "0xA" "0xTX" rfl rfl rfl rfl
  exact ⟨c', r, heq, htot⟩

end ChainFund
